import Mathlib

/-!
Verification of the template-engine subsystem (src/template-engine/src):
the line classifier and directive parser (`parser.rs`) and the HTML
generator (`generator.rs`).

Modelling conventions:
- Rust `&str` / `String` values are modelled as `List Char` (`Str`); indices
  returned by `find` are character positions (the source only slices at
  positions of ASCII marker substrings, where byte and char indices agree).
- Rust panics (`unwrap`, `expect`, out-of-range indexing/slicing) are
  modelled by `Option`: a result of `none` means the corresponding Rust
  code aborts by panicking; `some` carries the value actually produced.
- `get_content_type` / `get_conditional_data` are mutually recursive in the
  source; here they recurse on an explicit fuel argument so that every
  definition is structurally recursive and kernel-computable. The wrappers
  supply fuel `2 * length + 2` (resp. `2 * length + 1`), which is always
  sufficient: each nesting level strictly shortens the line, and
  `contentF_fuel_irrel` / `condDataF_fuel_irrel` prove the result does not
  depend on the fuel once it is at least this bound.
- The `HashMap<String, Vec<String>>` context is modelled as an association
  list with unique keys (`Ctx`), looked up by `ctxGet`.
-/

abbrev Str := List Char

/-- '\x7b', the opening curly brace character. -/
def lbrace : Char := Char.ofNat 123

/-- '\x7d', the closing curly brace character. -/
def rbrace : Char := Char.ofNat 125

-- Marker and keyword strings used by parser.rs (braces written as \x7b/\x7d).
def tagOpenS : Str := "\x7b%".data
def tagCloseS : Str := "%\x7d".data
def varOpenS : Str := "\x7b\x7b".data
def varCloseS : Str := "\x7d\x7d".data
def forWordS : Str := "for".data
def inWordS : Str := "in".data
def endforWordS : Str := "endfor".data
def ifWordS : Str := "if".data
def endifWordS : Str := "endif".data
def ifHdrS : Str := "\x7b% if ".data
def forHdrS : Str := "\x7b% for ".data
def condCloseS : Str := " %\x7d".data
def endifTagS : Str := "\x7b% endif %\x7d".data
def endforTagS : Str := "\x7b% endfor %\x7d".data
def invalidFmtS : Str := "Invalid format".data
def invalidInputS : Str := "Invalid input format".data
def unrecognizedOpS : Str := "Unrecognized operator".data
def newlineS : Str := "\n".data
def spaceS : Str := " ".data

/-- Rust ASCII whitespace test used to model `split_whitespace` and `trim`. -/
def isWS (c : Char) : Bool := c = ' ' || c = '\t' || c = '\n' || c = '\r'

/-- Model of Rust `str::contains(pat)`: `pat` occurs as a contiguous substring. -/
def containsSub : Str → Str → Bool
  | [], pat => pat.isEmpty
  | c :: t, pat => pat.isPrefixOf (c :: t) || containsSub t pat

/-- Fueled worker for `countMatches`; fuel bounds the number of scan steps. -/
def countMatchesAux : Nat → Str → Str → Nat
  | 0, _, _ => 0
  | fuel + 1, s, pat =>
    match s with
    | [] => 0
    | c :: t =>
      if !pat.isEmpty && pat.isPrefixOf (c :: t) then
        countMatchesAux fuel ((c :: t).drop pat.length) pat + 1
      else
        countMatchesAux fuel t pat

/-- Model of `input.matches(pat).count()`: number of disjoint occurrences of
`pat`, scanning left to right. -/
def countMatches (s pat : Str) : Nat := countMatchesAux s.length s pat

/-- Model of Rust `str::find(pat)` for a string pattern: index of the first
occurrence. -/
def findSub : Str → Str → Option Nat
  | [], pat => if pat.isEmpty then some 0 else none
  | c :: t, pat =>
    if pat.isPrefixOf (c :: t) then some 0
    else (findSub t pat).map (fun n => n + 1)

/-- Model of Rust `str::ends_with`. -/
def endsWith (s pat : Str) : Bool := pat.isSuffixOf s

/-- Accumulator worker for `splitWS`. -/
def splitWSAux : Str → Str → List Str
  | [], acc => if acc.isEmpty then [] else [acc.reverse]
  | c :: t, acc =>
    if isWS c then
      if acc.isEmpty then splitWSAux t [] else acc.reverse :: splitWSAux t []
    else
      splitWSAux t (c :: acc)

/-- Model of Rust `str::split_whitespace` (empty tokens skipped). -/
def splitWS (s : Str) : List Str := splitWSAux s []

/-- Model of Rust `str::trim` (ASCII whitespace). -/
def trimStr (s : Str) : Str := ((s.dropWhile isWS).reverse.dropWhile isWS).reverse

/-- Fueled worker for `splitOnSub`. -/
def splitOnSubAux : Nat → Str → Str → Str → List Str
  | 0, s, _, acc => [acc.reverse ++ s]
  | fuel + 1, s, sep, acc =>
    match s with
    | [] => [acc.reverse]
    | c :: t =>
      if !sep.isEmpty && sep.isPrefixOf (c :: t) then
        acc.reverse :: splitOnSubAux fuel ((c :: t).drop sep.length) sep []
      else
        splitOnSubAux fuel t sep (c :: acc)

/-- Model of Rust `str::split(sep)` for a string separator: parts between
disjoint occurrences of `sep`, empty parts preserved. -/
def splitOnSub (s sep : Str) : List Str := splitOnSubAux s.length s sep []

/-- Model of a Rust range slice `&s[a..b]`: `none` models the panic on an
invalid range (`a > b` or `b > len`). -/
def sliceRange (s : Str) (a b : Nat) : Option Str :=
  if a ≤ b ∧ b ≤ s.length then some ((s.drop a).take (b - a)) else none

/-- Fueled worker for `replaceAll`. -/
def replaceAux : Nat → Str → Str → Str → Str
  | 0, s, _, _ => s
  | fuel + 1, s, pat, sub =>
    match s with
    | [] => []
    | c :: t =>
      if !pat.isEmpty && pat.isPrefixOf (c :: t) then
        sub ++ replaceAux fuel ((c :: t).drop pat.length) pat sub
      else
        c :: replaceAux fuel t pat sub

/-- Model of Rust `str::replace(pat, sub)`: every disjoint occurrence of
`pat`, scanning left to right, replaced by `sub`. -/
def replaceAll (s pat sub : Str) : Str := replaceAux s.length s pat sub

-- ## Data model (parser.rs)

/-- parser.rs `ExpressionData`: tokenization result of a template-variable
line. -/
structure ExpressionData where
  expression : Str
  var_map : List Str
  gen_html : Str
deriving DecidableEq, Repr

/-- parser.rs `OperationType`: valid operation for for and if tags. -/
inductive OperationType where
  | Equal : OperationType
  | In : OperationType
  | Nosoported : Str → OperationType
deriving DecidableEq, Repr

/-- parser.rs `ConditionData`: structured condition of a tag. -/
structure ConditionData where
  left_operand : Str
  operation : OperationType
  right_operand : Str
deriving DecidableEq, Repr

mutual
/-- parser.rs `ContentType`: classification of one input line. -/
inductive ContentType where
  | Literal : Str → ContentType
  | TemplateVariable : ExpressionData → ContentType
  | Tag : TagType → ContentType
  | Unrecognized : ContentType
deriving Repr

/-- parser.rs `TagType`: a for-tag or an if-tag. -/
inductive TagType where
  | ForTag : Conditional → TagType
  | IfTag : Conditional → TagType
deriving Repr

/-- parser.rs `Conditional`: condition plus (boxed, possibly nested) body. -/
inductive Conditional where
  | mk : ConditionData → ContentType → Conditional
deriving Repr
end

deriving instance DecidableEq for ContentType, TagType, Conditional

/-- The condition component of a `Conditional`. -/
def Conditional.condition : Conditional → ConditionData
  | .mk c _ => c

/-- The body (`expression` field in the source) of a `Conditional`. -/
def Conditional.expression : Conditional → ContentType
  | .mk _ e => e

-- ## Parser functions (parser.rs)

/-- parser.rs `check_symbol_string`: substring containment. -/
def check_symbol_string (input pat : Str) : Bool := containsSub input pat

/-- parser.rs `check_matching_pair`: equal, nonzero numbers of occurrences of
the left and right marker. -/
def check_matching_pair (input left_part right_pat : Str) : Bool :=
  countMatches input left_part = countMatches input right_pat &&
    countMatches input left_part ≠ 0

/-- parser.rs `get_index_for_symbol`: index of the first occurrence of a
character. -/
def get_index_for_symbol : Str → Char → Option Nat
  | [], _ => none
  | c :: t, sym =>
    if c = sym then some 0 else (get_index_for_symbol t sym).map (fun n => n + 1)

/-- parser.rs `get_expression_data`: collect the whitespace-delimited words
containing both markers, in order. -/
def get_expression_data (input : Str) : ExpressionData :=
  { expression := input
    var_map := (splitWS input).filter
      (fun word => check_symbol_string word varOpenS && check_symbol_string word varCloseS)
    gen_html := [] }

/-- parser.rs `get_operation_type`. -/
def get_operation_type (input : Str) : OperationType :=
  if input = "=".data then .Equal
  else if input = inWordS then .In
  else .Nosoported unrecognizedOpS

/-- The fixed, ordered operator list of `get_conditional_expression`. -/
def operatorsList : List Str :=
  [">".data, ">=".data, "=".data, "<=".data, "<".data, inWordS]

/-- The operator loop of `get_conditional_expression`: the first operator of
the list contained in `input` splits it; Rust `break`s (falling through to
the final `Err`) when the split does not yield exactly two parts. -/
def condLoop (input : Str) : List Str → Except Str ConditionData
  | [] => .error invalidFmtS
  | op :: rest =>
    if containsSub input op then
      match splitOnSub input op with
      | [a, b] =>
        .ok { left_operand := trimStr a
              operation := get_operation_type op
              right_operand := trimStr b }
      | _ => .error invalidFmtS
    else condLoop input rest

/-- parser.rs `get_conditional_expression`. -/
def get_conditional_expression (input : Str) : Except Str ConditionData :=
  condLoop (trimStr input) operatorsList

mutual
/-- Fueled model of parser.rs `get_content_type`; `none` models a panic
(either the `expect` on a failed `get_conditional_data`, or a panic inside
it). Fuel `0` is never reached from the wrappers. -/
def contentF : Nat → Str → Option ContentType
  | 0, _ => none
  | fuel + 1, input =>
    let is_tag_expression := check_matching_pair input tagOpenS tagCloseS
    let is_for_tag :=
      (check_symbol_string input forWordS && check_symbol_string input inWordS) ||
        check_symbol_string input endforWordS
    let is_if_tag :=
      check_symbol_string input ifWordS || check_symbol_string input endifWordS
    let is_template_variable := check_matching_pair input varOpenS varCloseS
    if is_tag_expression && is_for_tag then
      match condDataF fuel input with
      | some (.ok content) => some (.Tag (.ForTag content))
      | _ => none
    else if is_tag_expression && is_if_tag then
      match condDataF fuel input with
      | some (.ok content) => some (.Tag (.IfTag content))
      | _ => none
    else if is_template_variable then
      some (.TemplateVariable (get_expression_data input))
    else if !is_tag_expression && !is_template_variable then
      some (.Literal input)
    else
      some .Unrecognized

/-- Fueled model of parser.rs `get_conditional_data`; `some (.error e)` is the
returned `Err`, `none` models a panic (missing `if`/`for` header `expect`,
invalid body slice range, or a panic in the nested classification). -/
def condDataF : Nat → Str → Option (Except Str Conditional)
  | 0, _ => none
  | fuel + 1, input =>
    if !endsWith input endifTagS && !endsWith input endforTagS then
      some (.error invalidInputS)
    else
      match (match findSub input ifHdrS with
             | some i => some (i + 6)
             | none => (findSub input forHdrS).map (fun i => i + 7)) with
      | none => none
      | some start_condition =>
        match findSub input condCloseS with
        | none => none
        | some end_condition =>
          match (match findSub input endifTagS with
                 | some i => some i
                 | none => findSub input endforTagS) with
          | none => none
          | some end_expr =>
            if start_condition ≥ end_condition then
              some (.error invalidInputS)
            else
              match sliceRange input start_condition end_condition with
              | none => none
              | some condStr =>
                match get_conditional_expression condStr with
                | .error e => some (.error e)
                | .ok condD =>
                  match sliceRange input (end_condition + 3) end_expr with
                  | none => none
                  | some bodyStr =>
                    match contentF fuel (trimStr bodyStr) with
                    | none => none
                    | some body => some (.ok (.mk condD body))
end

/-- parser.rs `get_content_type` (entry point of the parser). -/
def get_content_type (input : Str) : Option ContentType :=
  contentF (2 * input.length + 2) input

/-- parser.rs `get_conditional_data`. -/
def get_conditional_data (input : Str) : Option (Except Str Conditional) :=
  condDataF (2 * input.length + 1) input

-- ## Generator (generator.rs)

/-- The `HashMap<String, Vec<String>>` context, as an association list with
unique keys. -/
abbrev Ctx := List (Str × List Str)

/-- Model of `context.get(key)`. -/
def ctxGet : Ctx → Str → Option (List Str)
  | [], _ => none
  | (k, v) :: rest, key => if k = key then some v else ctxGet rest key

/-- The per-placeholder loop of `generate_html_template_var`, threading the
`gen_html` accumulator. `none` models a panic: `get_index_for_symbol`
unwrapped on a brace-free token, an invalid strip range, the unwrapped
context lookup, or indexing `[0]` into an empty binding. -/
def genVarLoop (ctx : Ctx) : List Str → Str → Option Str
  | [], acc => some acc
  | var :: rest, acc =>
    match get_index_for_symbol var lbrace with
    | none => none
    | some i =>
      match get_index_for_symbol var rbrace with
      | none => none
      | some k =>
        match sliceRange var (i + 2) k with
        | none => none
        | some var_without_braces =>
          match ctxGet ctx var_without_braces with
          | none => none
          | some vals =>
            match vals with
            | [] => none
            | val :: _ => genVarLoop ctx rest (replaceAll acc var val)

/-- generator.rs `generate_html_template_var`: renders a template-variable
token, starting from `expression` and replacing each `var_map` entry by
element 0 of its context binding. `none` models a panic. -/
def generate_html_template_var (content : ExpressionData) (ctx : Ctx) :
    Option ExpressionData :=
  (genVarLoop ctx content.var_map content.expression).map
    (fun g => { content with gen_html := g })

/-- The match on `*content.expression` inside the `In` loop of
`generate_html_tag`: the text one iteration appends for the current element
(before the unconditional newline). The Rust wildcard arm `_ => {}` covers
exactly the `Tag` and `Unrecognized` constructors, spelled out here. `none`
models the panic of the unguarded `data.var_map[0]` on an empty `var_map`. -/
def inPiece (expr : ContentType) (element : Str) : Option Str :=
  match expr with
  | .Literal text => some text
  | .TemplateVariable data =>
    match data.var_map with
    | [] => none
    | v :: _ => some (replaceAll data.expression v element)
  | .Tag _ => some []
  | .Unrecognized => some []

/-- The `for element in right_operand` loop of the `In` branch of
`generate_html_tag`: one repetition per element, each followed by a newline. -/
def inLoop (expr : ContentType) : List Str → Option Str
  | [] => some []
  | element :: rest =>
    match inPiece expr element with
    | none => none
    | some piece => (inLoop expr rest).map (fun r => piece ++ newlineS ++ r)

mutual
/-- generator.rs `generate_html_tag`: renders an if/for tag token against the
context. `none` models a panic (inside a nested variable render, or the
unguarded `var_map[0]` in the `In` loop). The source binds
`right_operand = condition.right_operand.split(" ")` before the lookup and
inlines the body dispatch of the `Equal` branch as a `match` on
`*content.expression`; here the pure split is inlined at its use site and the
dispatch is the pair of mutual helpers `renderEqualBody` / `renderEqualTag`,
one per nesting level of the matched constructors. -/
def generate_html_tag : Conditional → Ctx → Option Str
  | .mk cond expr, ctx =>
    match cond.operation with
    | .Equal =>
      match ctxGet ctx cond.left_operand with
      | none => some spaceS
      | some left_operand =>
        if splitOnSub cond.right_operand spaceS = left_operand then
          renderEqualBody expr ctx
        else
          some []
    | .In =>
      match ctxGet ctx cond.right_operand with
      | none => some spaceS
      | some right_operand => inLoop expr right_operand
    | .Nosoported e => some e

/-- The `match &mut *content.expression` arms of the `Equal` branch of
generator.rs `generate_html_tag`. -/
def renderEqualBody : ContentType → Ctx → Option Str
  | .Literal text, _ => some text
  | .Tag tag, ctx => renderEqualTag tag ctx
  | .TemplateVariable data, ctx =>
    (generate_html_template_var data ctx).map ExpressionData.gen_html
  | .Unrecognized, _ => some []

/-- The `TagType` sub-arms of the `Equal` branch: both recurse into the
nested conditional. -/
def renderEqualTag : TagType → Ctx → Option Str
  | .IfTag data, ctx => generate_html_tag data ctx
  | .ForTag data, ctx => generate_html_tag data ctx
end

-- ## Support lemmas

theorem trimStr_length_le (s : Str) : (trimStr s).length ≤ s.length := by
  unfold trimStr
  calc ((s.dropWhile isWS).reverse.dropWhile isWS).reverse.length
      = ((s.dropWhile isWS).reverse.dropWhile isWS).length := List.length_reverse _
    _ ≤ (s.dropWhile isWS).reverse.length := (List.dropWhile_sublist isWS).length_le
    _ = (s.dropWhile isWS).length := List.length_reverse _
    _ ≤ s.length := (List.dropWhile_sublist isWS).length_le

theorem endsWith_length_le {s pat : Str} (h : endsWith s pat = true) :
    pat.length ≤ s.length := by
  unfold endsWith at h
  exact (List.isSuffixOf_iff_suffix.mp h).length_le

theorem sliceRange_length_le {s r : Str} {a b : Nat} (h : sliceRange s a b = some r) :
    r.length ≤ s.length - a := by
  unfold sliceRange at h
  split at h
  · cases h
    simp only [List.length_take, List.length_drop]
    omega
  · cases h

/-- Fuel above the `2 * length + 2` (resp. `+ 1`) bound is irrelevant: the
fueled workers agree with the wrappers. -/
theorem fuel_sufficient : ∀ f : Nat,
    (∀ s : Str, 2 * s.length + 2 ≤ f → contentF f s = get_content_type s) ∧
    (∀ s : Str, 2 * s.length + 1 ≤ f → condDataF f s = get_conditional_data s) := by
  intro f
  induction f using Nat.strong_induction_on with
  | _ f ih =>
    constructor
    · intro s hf
      obtain ⟨f', rfl⟩ : ∃ f', f = f' + 1 := ⟨f - 1, by omega⟩
      have h1 : condDataF f' s = get_conditional_data s :=
        (ih f' (by omega)).2 s (by omega)
      show contentF (f' + 1) s = contentF (2 * s.length + 1 + 1) s
      rw [contentF, contentF, h1]
      rfl
    · intro s hf
      obtain ⟨f', rfl⟩ : ∃ f', f = f' + 1 := ⟨f - 1, by omega⟩
      rw [get_conditional_data, condDataF, condDataF]
      split
      · rfl
      next hsuffix =>
        have hs11 : 11 ≤ s.length := by
          rcases h1 : endsWith s endifTagS with _ | _
          · rcases h2 : endsWith s endforTagS with _ | _
            · exact absurd (by simp [h1, h2]) hsuffix
            · have := endsWith_length_le h2
              have : endforTagS.length = 12 := by decide
              omega
          · have := endsWith_length_le h1
            have : endifTagS.length = 11 := by decide
            omega
        split
        · rfl
        next start_condition hsc =>
          split
          · rfl
          next end_condition hec =>
            split
            · rfl
            next end_expr hee =>
              split
              · rfl
              next hge =>
                split
                · rfl
                next condStr hcs =>
                  split
                  next e herr => rfl
                  next condD hok =>
                    split
                    · rfl
                    next bodyStr hbs =>
                      have hb1 := sliceRange_length_le hbs
                      have hb2 := trimStr_length_le bodyStr
                      have hlhs : contentF f' (trimStr bodyStr) =
                          get_content_type (trimStr bodyStr) :=
                        (ih f' (by omega)).1 _ (by omega)
                      have hrhs : contentF (2 * s.length) (trimStr bodyStr) =
                          get_content_type (trimStr bodyStr) :=
                        (ih (2 * s.length) (by omega)).1 _ (by omega)
                      rw [hlhs, hrhs]

theorem countMatchesAux_eq_zero :
    ∀ (fuel : Nat) (s pat : Str), containsSub s pat = false →
      countMatchesAux fuel s pat = 0 := by
  intro fuel
  induction fuel with
  | zero => intro s pat _; rfl
  | succ fuel ih =>
    intro s pat h
    cases s with
    | nil => rfl
    | cons c t =>
      simp only [containsSub, Bool.or_eq_false_iff] at h
      rw [countMatchesAux]
      simp only [h.1, Bool.and_false, if_false]
      exact ih t pat h.2

/-- A line without the left marker fails `check_matching_pair` (zero
occurrences). -/
theorem check_matching_pair_eq_false {s l r : Str} (h : containsSub s l = false) :
    check_matching_pair s l r = false := by
  unfold check_matching_pair countMatches
  rw [countMatchesAux_eq_zero s.length s l h]
  simp

/-- The operator loop visits the list in order and acts on the first operator
contained in the input, exactly as `List.find?` selects it. -/
theorem condLoop_eq_find (input : Str) :
    ∀ ops : List Str,
      condLoop input ops =
        match ops.find? (fun op => containsSub input op) with
        | none => .error invalidFmtS
        | some op =>
          match splitOnSub input op with
          | [a, b] =>
            .ok { left_operand := trimStr a
                  operation := get_operation_type op
                  right_operand := trimStr b }
          | _ => .error invalidFmtS := by
  intro ops
  induction ops with
  | nil => rfl
  | cons op rest ih =>
    by_cases h : containsSub input op = true
    · rw [condLoop, if_pos h, List.find?_cons_of_pos _ h]
    · rw [condLoop, if_neg h, List.find?_cons_of_neg _ h, ih]

theorem inLoop_literal (t : Str) :
    ∀ vs : List Str,
      inLoop (.Literal t) vs = some ((vs.map (fun _ => t ++ newlineS)).flatten) := by
  intro vs
  induction vs with
  | nil => rfl
  | cons el rest ih =>
    rw [inLoop, ih, inPiece]
    simp [List.flatten_cons, List.append_assoc]

theorem inLoop_var {d : ExpressionData} {v : Str} {vm : List Str}
    (h : d.var_map = v :: vm) :
    ∀ vs : List Str,
      inLoop (.TemplateVariable d) vs =
        some ((vs.map (fun el => replaceAll d.expression v el ++ newlineS)).flatten) := by
  intro vs
  induction vs with
  | nil => rfl
  | cons el rest ih =>
    rw [inLoop, ih, inPiece, h]
    simp [List.flatten_cons, List.append_assoc]

theorem inLoop_tag (tg : TagType) :
    ∀ vs : List Str,
      inLoop (.Tag tg) vs = some ((vs.map (fun _ => newlineS)).flatten) := by
  intro vs
  induction vs with
  | nil => rfl
  | cons el rest ih =>
    rw [inLoop, ih, inPiece]
    simp [List.flatten_cons]

theorem inLoop_unrecognized :
    ∀ vs : List Str,
      inLoop .Unrecognized vs = some ((vs.map (fun _ => newlineS)).flatten) := by
  intro vs
  induction vs with
  | nil => rfl
  | cons el rest ih =>
    rw [inLoop, ih, inPiece]
    simp [List.flatten_cons]

/-- One-step unfolding of `get_content_type` (the `let`-bound flags of the
source inlined into the branch conditions). -/
theorem get_content_type_unfold (s : Str) :
    get_content_type s =
      (if check_matching_pair s tagOpenS tagCloseS &&
          ((check_symbol_string s forWordS && check_symbol_string s inWordS) ||
            check_symbol_string s endforWordS) then
         match get_conditional_data s with
         | some (.ok content) => some (.Tag (.ForTag content))
         | _ => none
       else if check_matching_pair s tagOpenS tagCloseS &&
          (check_symbol_string s ifWordS || check_symbol_string s endifWordS) then
         match get_conditional_data s with
         | some (.ok content) => some (.Tag (.IfTag content))
         | _ => none
       else if check_matching_pair s varOpenS varCloseS then
         some (.TemplateVariable (get_expression_data s))
       else if !check_matching_pair s tagOpenS tagCloseS &&
          !check_matching_pair s varOpenS varCloseS then
         some (.Literal s)
       else
         some .Unrecognized) := by
  show contentF (2 * s.length + 1 + 1) s = _
  rw [contentF]
  rfl

/-- One-step unfolding of `get_conditional_data`; the nested classification
appears with the concrete fuel `2 * s.length`, which `fuel_sufficient` equates
with `get_content_type` whenever the body is shorter than the line. -/
theorem get_conditional_data_unfold (s : Str) :
    get_conditional_data s =
      (if !endsWith s endifTagS && !endsWith s endforTagS then
         some (.error invalidInputS)
       else
         match (match findSub s ifHdrS with
                | some i => some (i + 6)
                | none => (findSub s forHdrS).map (fun i => i + 7)) with
         | none => none
         | some start_condition =>
           match findSub s condCloseS with
           | none => none
           | some end_condition =>
             match (match findSub s endifTagS with
                    | some i => some i
                    | none => findSub s endforTagS) with
             | none => none
             | some end_expr =>
               if start_condition ≥ end_condition then
                 some (.error invalidInputS)
               else
                 match sliceRange s start_condition end_condition with
                 | none => none
                 | some condStr =>
                   match get_conditional_expression condStr with
                   | .error e => some (.error e)
                   | .ok condD =>
                     match sliceRange s (end_condition + 3) end_expr with
                     | none => none
                     | some bodyStr =>
                       match contentF (2 * s.length) (trimStr bodyStr) with
                       | none => none
                       | some body => some (.ok (.mk condD body))) := by
  rw [get_conditional_data, condDataF]

-- ## Claim theorems

/-- C8: a line containing none of the four marker substrings is classified as
a Literal carrying the line unchanged. -/
theorem markerless_line_classifies_literal (s : Str)
    (h1 : containsSub s varOpenS = false) (_h2 : containsSub s varCloseS = false)
    (h3 : containsSub s tagOpenS = false) (_h4 : containsSub s tagCloseS = false) :
    get_content_type s = some (.Literal s) := by
  rw [get_content_type_unfold]
  rw [check_matching_pair_eq_false h3, check_matching_pair_eq_false h1]
  simp

/-- C8 witness: the literal line of the parser unit test. -/
theorem markerless_line_classifies_literal_witness :
    get_content_type "<h1>Hello world</h1>".data =
      some (.Literal "<h1>Hello world</h1>".data) :=
  markerless_line_classifies_literal _ rfl rfl rfl rfl

/-- C3: an Equal directive whose left operand is unbound, and an In directive
whose right operand is unbound, both soft-fail: the render returns the blank
one-space string and no error (and no panic). -/
theorem absent_key_soft_fails (cond : ConditionData) (expr : ContentType) (ctx : Ctx) :
    (cond.operation = .Equal → ctxGet ctx cond.left_operand = none →
      generate_html_tag (.mk cond expr) ctx = some spaceS) ∧
    (cond.operation = .In → ctxGet ctx cond.right_operand = none →
      generate_html_tag (.mk cond expr) ctx = some spaceS) := by
  obtain ⟨l, op, r⟩ := cond
  constructor
  · intro hop hget
    dsimp only at hop hget
    subst hop
    rw [generate_html_tag]
    simp [hget]
  · intro hop hget
    dsimp only at hop hget
    subst hop
    rw [generate_html_tag]
    simp [hget]

/-- C3 witness: an if-tag and a for-tag rendered against contexts missing the
looked-up key. -/
theorem absent_key_soft_fails_witness :
    generate_html_tag
      (.mk { left_operand := "name".data, operation := .Equal, right_operand := "Bob".data }
        (.Literal "<h1> x </h1>".data)) [] = some spaceS ∧
    generate_html_tag
      (.mk { left_operand := "x".data, operation := .In, right_operand := "y".data }
        (.Literal "z".data)) [("q".data, [])] = some spaceS :=
  ⟨(absent_key_soft_fails _ _ _).1 rfl rfl, (absent_key_soft_fails _ _ _).2 rfl rfl⟩

/-- C7: condition parsing scans the fixed ordered operator list, acts on the
first operator contained in the trimmed text (split on it, exactly two parts
required, both trimmed), maps the "=" and "in" tokens to Equal and In and
every other token to Nosoported with a message, and fails with "Invalid
format" when no listed operator occurs or when the split is not binary. -/
theorem conditional_expression_spec :
    (∀ input : Str,
      get_conditional_expression input =
        match operatorsList.find? (fun op => containsSub (trimStr input) op) with
        | none => .error invalidFmtS
        | some op =>
          match splitOnSub (trimStr input) op with
          | [a, b] =>
            .ok { left_operand := trimStr a
                  operation := get_operation_type op
                  right_operand := trimStr b }
          | _ => .error invalidFmtS) ∧
    operatorsList = [">".data, ">=".data, "=".data, "<=".data, "<".data, inWordS] ∧
    get_operation_type "=".data = .Equal ∧
    get_operation_type inWordS = .In ∧
    (∀ op : Str, op ≠ "=".data → op ≠ inWordS →
      get_operation_type op = .Nosoported unrecognizedOpS) := by
  refine ⟨fun input => condLoop_eq_find (trimStr input) operatorsList, rfl, rfl, rfl, ?_⟩
  intro op hne1 hne2
  unfold get_operation_type
  rw [if_neg hne1, if_neg hne2]

/-- C7 witness: the unit-test condition, an unsupported-operator token, and a
condition with no listed operator. -/
theorem conditional_expression_spec_witness :
    get_conditional_expression " amount = 2000 ".data =
      .ok { left_operand := "amount".data, operation := .Equal,
            right_operand := "2000".data } ∧
    get_operation_type "~".data = .Nosoported unrecognizedOpS := by
  constructor
  · rw [conditional_expression_spec.1 " amount = 2000 ".data]
    rfl
  · exact conditional_expression_spec.2.2.2.2 "~".data (by decide) (by decide)

/-- C5 counterexample: the code splits `condition.right` on the single-space
separator, not on whitespace. For right operand "a  b" (two spaces) bound
value list ["a", "b"], the whitespace tokenization equals the bound list, so
the claim predicts the rendered body "BODY"; the code compares
["a", "", "b"] and renders the empty string. -/
theorem equal_splits_on_single_space_cex :
    generate_html_tag
      (.mk { left_operand := "x".data, operation := .Equal,
             right_operand := "a  b".data } (.Literal "BODY".data))
      [("x".data, ["a".data, "b".data])] = some [] ∧
    splitWS "a  b".data = ["a".data, "b".data] ∧
    splitOnSub "a  b".data spaceS = ["a".data, [], "b".data] ∧
    generate_html_tag
      (.mk { left_operand := "x".data, operation := .Equal,
             right_operand := "a  b".data } (.Literal "BODY".data))
      [("x".data, ["a".data, "b".data])] ≠ some "BODY".data :=
  ⟨rfl, rfl, rfl, by decide⟩

/-- C5 (amended: the right operand is split on each single space character,
empty tokens preserved, rather than on whitespace): an Equal directive whose
left operand is bound compares the space-split token list of
`condition.right` for exact equality with the bound value sequence; on
equality it returns the recursively rendered body (`renderEqualBody`),
otherwise the empty string. -/
theorem equal_directive_render (cond : ConditionData) (body : ContentType)
    (ctx : Ctx) (vs : List Str) (hop : cond.operation = .Equal)
    (hget : ctxGet ctx cond.left_operand = some vs) :
    (splitOnSub cond.right_operand spaceS = vs →
      generate_html_tag (.mk cond body) ctx = renderEqualBody body ctx) ∧
    (splitOnSub cond.right_operand spaceS ≠ vs →
      generate_html_tag (.mk cond body) ctx = some []) := by
  obtain ⟨l, op, r⟩ := cond
  dsimp only at hop hget ⊢
  subst hop
  rw [generate_html_tag]
  constructor
  · intro heq
    simp [hget, heq]
  · intro hne
    simp [hget, hne]

/-- C5 witness: the spec's if-example parses to an Equal conditional with a
Literal body; against \x7bname: ["Bob"]\x7d it renders the body text, against
\x7bname: ["Alice"]\x7d it renders the empty string. -/
theorem equal_directive_render_witness :
    get_content_type "\x7b% if name = Bob %\x7d <h1> hello Bob </h1> \x7b% endif %\x7d".data =
      some (.Tag (.IfTag (.mk { left_operand := "name".data, operation := .Equal,
                                right_operand := "Bob".data }
        (.Literal "<h1> hello Bob </h1>".data)))) ∧
    generate_html_tag
      (.mk { left_operand := "name".data, operation := .Equal,
             right_operand := "Bob".data } (.Literal "<h1> hello Bob </h1>".data))
      [("name".data, ["Bob".data])] = some "<h1> hello Bob </h1>".data ∧
    generate_html_tag
      (.mk { left_operand := "name".data, operation := .Equal,
             right_operand := "Bob".data } (.Literal "<h1> hello Bob </h1>".data))
      [("name".data, ["Alice".data])] = some [] := by
  refine ⟨rfl, ?_, ?_⟩
  · exact ((equal_directive_render ⟨"name".data, .Equal, "Bob".data⟩
      (.Literal "<h1> hello Bob </h1>".data) [("name".data, ["Bob".data])]
      ["Bob".data] rfl rfl).1 rfl).trans rfl
  · exact (equal_directive_render ⟨"name".data, .Equal, "Bob".data⟩
      (.Literal "<h1> hello Bob </h1>".data) [("name".data, ["Alice".data])]
      ["Alice".data] rfl rfl).2 (by decide)

/-- C6: an In directive with a bound right operand iterates the bound
sequence in stored order, emitting one repetition per element followed by a
newline: Literal bodies emit the same text every iteration, Variable bodies
replace every occurrence of the first placeholder of `var_map` by the current
element, and Tag or Unrecognized bodies contribute nothing but the newline. -/
theorem in_directive_render (cond : ConditionData) (expr : ContentType)
    (ctx : Ctx) (vs : List Str) (hop : cond.operation = .In)
    (hget : ctxGet ctx cond.right_operand = some vs) :
    (∀ text, expr = .Literal text →
      generate_html_tag (.mk cond expr) ctx =
        some ((vs.map (fun _ => text ++ newlineS)).flatten)) ∧
    (∀ data v vm, expr = .TemplateVariable data → data.var_map = v :: vm →
      generate_html_tag (.mk cond expr) ctx =
        some ((vs.map
          (fun element => replaceAll data.expression v element ++ newlineS)).flatten)) ∧
    (∀ tg, expr = .Tag tg →
      generate_html_tag (.mk cond expr) ctx =
        some ((vs.map (fun _ => newlineS)).flatten)) ∧
    (expr = .Unrecognized →
      generate_html_tag (.mk cond expr) ctx =
        some ((vs.map (fun _ => newlineS)).flatten)) := by
  obtain ⟨l, op, r⟩ := cond
  dsimp only at hop hget ⊢
  subst hop
  have hbase : ∀ e, generate_html_tag (.mk ⟨l, .In, r⟩ e) ctx = inLoop e vs := by
    intro e
    rw [generate_html_tag]
    simp [hget]
  refine ⟨?_, ?_, ?_, ?_⟩
  · intro text he
    subst he
    rw [hbase, inLoop_literal]
  · intro data v vm he hvm
    subst he
    rw [hbase, inLoop_var hvm]
  · intro tg he
    subst he
    rw [hbase, inLoop_tag]
  · intro he
    subst he
    rw [hbase, inLoop_unrecognized]

/-- C6 witness: the spec's for-example over \x7bname: ["Bob", "Lisa"]\x7d. -/
theorem in_directive_render_witness :
    get_content_type
      "\x7b% for customer in name %\x7d <li> \x7b\x7bcustomer\x7d\x7d </li> \x7b% endfor %\x7d".data =
      some (.Tag (.ForTag (.mk { left_operand := "customer".data, operation := .In,
                                 right_operand := "name".data }
        (.TemplateVariable { expression := "<li> \x7b\x7bcustomer\x7d\x7d </li>".data,
                             var_map := ["\x7b\x7bcustomer\x7d\x7d".data],
                             gen_html := [] })))) ∧
    generate_html_tag
      (.mk { left_operand := "customer".data, operation := .In,
             right_operand := "name".data }
        (.TemplateVariable { expression := "<li> \x7b\x7bcustomer\x7d\x7d </li>".data,
                             var_map := ["\x7b\x7bcustomer\x7d\x7d".data],
                             gen_html := [] }))
      [("name".data, ["Bob".data, "Lisa".data])] =
      some "<li> Bob </li>\n<li> Lisa </li>\n".data := by
  refine ⟨rfl, ?_⟩
  exact ((in_directive_render ⟨"customer".data, .In, "name".data⟩
      (.TemplateVariable ⟨"<li> \x7b\x7bcustomer\x7d\x7d </li>".data,
        ["\x7b\x7bcustomer\x7d\x7d".data], []⟩)
      [("name".data, ["Bob".data, "Lisa".data])] ["Bob".data, "Lisa".data]
      rfl rfl).2.1 _ "\x7b\x7bcustomer\x7d\x7d".data [] rfl rfl).trans rfl

/-- C10: an In directive whose body is a template Variable with an empty
placeholder list (as produced whenever the body's opening and closing markers
do not occur inside one whitespace-delimited token) panics on the unguarded
`var_map[0]` as soon as the bound sequence is non-empty: `generate_html_tag`
is partial on such inputs. -/
theorem in_empty_varmap_panics (cond : ConditionData) (ctx : Ctx)
    (data : ExpressionData) (element : Str) (rest : List Str)
    (hop : cond.operation = .In)
    (hget : ctxGet ctx cond.right_operand = some (element :: rest))
    (hvm : data.var_map = []) :
    generate_html_tag (.mk cond (.TemplateVariable data)) ctx = none := by
  obtain ⟨l, op, r⟩ := cond
  dsimp only at hop hget ⊢
  subst hop
  rw [generate_html_tag]
  simp only [hget]
  rw [inLoop, inPiece, hvm]

/-- C10 witness: the body "\x7b\x7b name \x7d\x7d" has its markers in separate
whitespace tokens, so it classifies as a template Variable with an empty
placeholder list, and rendering the for-line against \x7by: ["a"]\x7d
panics. -/
theorem in_empty_varmap_panics_witness :
    get_content_type "\x7b% for x in y %\x7d \x7b\x7b name \x7d\x7d \x7b% endfor %\x7d".data =
      some (.Tag (.ForTag (.mk { left_operand := "x".data, operation := .In,
                                 right_operand := "y".data }
        (.TemplateVariable { expression := "\x7b\x7b name \x7d\x7d".data,
                             var_map := [], gen_html := [] })))) ∧
    generate_html_tag
      (.mk { left_operand := "x".data, operation := .In,
             right_operand := "y".data }
        (.TemplateVariable { expression := "\x7b\x7b name \x7d\x7d".data,
                             var_map := [], gen_html := [] }))
      [("y".data, ["a".data])] = none :=
  ⟨rfl, in_empty_varmap_panics _ _ _ "a".data [] rfl rfl rfl⟩

/-- C4 counterexample: a direct Variable render whose placeholder name is
absent from the Context does not propagate a recoverable lookup error — the
source unwraps the lookup, so the render aborts by panicking (modelled as
`none`). -/
theorem variable_absent_aborts_cex :
    generate_html_template_var
      { expression := "\x7b\x7bname\x7d\x7d".data,
        var_map := ["\x7b\x7bname\x7d\x7d".data], gen_html := [] }
      [] = none := rfl

/-- C4 (amended: absence of the name is a hard failure that aborts the render
by panicking — it is not silently skipped, but neither is it returned as a
recoverable error value): placeholders are processed in order; for the head
placeholder the markers are stripped by slicing between the first brace
indices, an absent name aborts, and a present name replaces every occurrence
of the placeholder token in the accumulated text (initialized from
`expression`) by element 0 of the bound sequence before the loop continues. -/
theorem variable_render_steps (e : ExpressionData) (ctx : Ctx) (v : Str)
    (rest : List Str) (i k : Nat) (name : Str)
    (hvm : e.var_map = v :: rest)
    (hi : get_index_for_symbol v lbrace = some i)
    (hk : get_index_for_symbol v rbrace = some k)
    (hname : sliceRange v (i + 2) k = some name) :
    (ctxGet ctx name = none → generate_html_template_var e ctx = none) ∧
    (∀ val vtail, ctxGet ctx name = some (val :: vtail) →
      generate_html_template_var e ctx =
        (genVarLoop ctx rest (replaceAll e.expression v val)).map
          (fun g => { e with gen_html := g })) := by
  constructor
  · intro hget
    unfold generate_html_template_var
    rw [hvm, genVarLoop]
    simp [hi, hk, hname, hget]
  · intro val vtail hget
    unfold generate_html_template_var
    rw [hvm, genVarLoop]
    simp [hi, hk, hname, hget]

/-- C4 witness: the spec's interpolation example, rendered through the
present-name branch of the step theorem. -/
theorem variable_render_steps_witness :
    generate_html_template_var
      { expression := "Hi \x7b\x7bname\x7d\x7d ,welcome".data,
        var_map := ["\x7b\x7bname\x7d\x7d".data], gen_html := [] }
      [("name".data, ["Bob".data])] =
      some { expression := "Hi \x7b\x7bname\x7d\x7d ,welcome".data,
             var_map := ["\x7b\x7bname\x7d\x7d".data],
             gen_html := "Hi Bob ,welcome".data } := by
  exact ((variable_render_steps
    ⟨"Hi \x7b\x7bname\x7d\x7d ,welcome".data, ["\x7b\x7bname\x7d\x7d".data], []⟩
    [("name".data, ["Bob".data])] "\x7b\x7bname\x7d\x7d".data [] 0 6 "name".data
    rfl rfl rfl rfl).2 "Bob".data [] rfl).trans rfl

/-- C1 counterexample: the directive line "\x7b% if x = y %\x7d" is missing
its closing suffix; `get_conditional_data` does return the recoverable
FormatError, but `get_content_type` unwraps it with `expect`, so
classification panics (`none`) instead of yielding the error to the
caller. -/
theorem parse_failure_classify_panics_cex :
    get_conditional_data "\x7b% if x = y %\x7d".data =
      some (.error invalidInputS) ∧
    get_content_type "\x7b% if x = y %\x7d".data = none :=
  ⟨rfl, rfl⟩

/-- C1 (amended: a failed directive parse is produced as a recoverable error
value by `get_conditional_data`, but `get_content_type` does not pass it to
the caller — it unwraps the result and aborts by panicking): a line without
either closing suffix yields the FormatError from `get_conditional_data`,
and any tag-classified line on which `get_conditional_data` returns an error
makes `get_content_type` panic. -/
theorem parse_failure_err_but_classify_aborts :
    (∀ s : Str, endsWith s endifTagS = false → endsWith s endforTagS = false →
      get_conditional_data s = some (.error invalidInputS)) ∧
    (∀ (s e : Str),
      check_matching_pair s tagOpenS tagCloseS = true →
      (((check_symbol_string s forWordS && check_symbol_string s inWordS) ||
          check_symbol_string s endforWordS) = true ∨
        (check_symbol_string s ifWordS || check_symbol_string s endifWordS) = true) →
      get_conditional_data s = some (.error e) →
      get_content_type s = none) := by
  constructor
  · intro s h1 h2
    rw [get_conditional_data_unfold]
    simp [h1, h2]
  · intro s e htag hkw herr
    rw [get_content_type_unfold]
    rcases hkw with h | h
    · simp [htag, h, herr]
    · by_cases hfor : ((check_symbol_string s forWordS &&
          check_symbol_string s inWordS) || check_symbol_string s endforWordS) = true
      · simp [htag, hfor, herr]
      · simp [htag, hfor, h, herr]

/-- C1 witness: a for-line missing its suffix gets the recoverable error, and
an if-line on which the parse fails makes classification panic. -/
theorem parse_failure_err_but_classify_aborts_witness :
    get_conditional_data "\x7b% for x in y %\x7d z".data =
      some (.error invalidInputS) ∧
    get_content_type "\x7b% if q = r %\x7d extra".data = none :=
  ⟨parse_failure_err_but_classify_aborts.1 _ rfl rfl,
   parse_failure_err_but_classify_aborts.2 "\x7b% if q = r %\x7d extra".data
     invalidInputS rfl (Or.inr rfl) rfl⟩

/-- C9 counterexample: an Equal directive with a template-variable body whose
render succeeds, yet whose output "Q \x7b\x7b a \x7d\x7d" re-classifies as a
template Variable (the unreplaced loose markers survive), not as a
Literal. -/
theorem equal_render_reclassify_cex :
    get_content_type
      "\x7b% if a = b %\x7d \x7b\x7bx\x7d\x7d \x7b\x7b a \x7d\x7d \x7b% endif %\x7d".data =
      some (.Tag (.IfTag (.mk { left_operand := "a".data, operation := .Equal,
                                right_operand := "b".data }
        (.TemplateVariable { expression := "\x7b\x7bx\x7d\x7d \x7b\x7b a \x7d\x7d".data,
                             var_map := ["\x7b\x7bx\x7d\x7d".data],
                             gen_html := [] })))) ∧
    generate_html_tag
      (.mk { left_operand := "a".data, operation := .Equal,
             right_operand := "b".data }
        (.TemplateVariable { expression := "\x7b\x7bx\x7d\x7d \x7b\x7b a \x7d\x7d".data,
                             var_map := ["\x7b\x7bx\x7d\x7d".data],
                             gen_html := [] }))
      [("a".data, ["b".data]), ("x".data, ["Q".data])] =
      some "Q \x7b\x7b a \x7d\x7d".data ∧
    get_content_type "Q \x7b\x7b a \x7d\x7d".data =
      some (.TemplateVariable { expression := "Q \x7b\x7b a \x7d\x7d".data,
                                var_map := [], gen_html := [] }) ∧
    get_content_type "Q \x7b\x7b a \x7d\x7d".data ≠
      some (.Literal "Q \x7b\x7b a \x7d\x7d".data) :=
  ⟨rfl, rfl, rfl, by decide⟩

/-- C9 (amended: restricted to Literal bodies — Equal directives whose bodies
interpolate template variables can emit residual or injected markers and then
re-classify as non-Literal): any line classified Literal re-classifies to the
same Literal, and any successful Equal render of a Literal body whose body
text itself classifies Literal yields output classifying Literal again. -/
theorem literal_and_equal_literal_reclassify :
    (∀ s t : Str, get_content_type s = some (.Literal t) →
      get_content_type t = some (.Literal t)) ∧
    (∀ (cond : ConditionData) (t : Str) (ctx : Ctx) (out : Str),
      cond.operation = .Equal →
      get_content_type t = some (.Literal t) →
      generate_html_tag (.mk cond (.Literal t)) ctx = some out →
      get_content_type out = some (.Literal out)) := by
  have key : ∀ s t : Str, get_content_type s = some (.Literal t) → t = s := by
    intro s t h
    rw [get_content_type_unfold] at h
    split at h
    · split at h <;> simp_all
    · split at h
      · split at h <;> simp_all
      · split at h
        · simp_all
        · split at h
          · simp_all
          · simp_all
  constructor
  · intro s t h
    have ht := key s t h
    subst ht
    exact h
  · intro cond t ctx out hop hlit hrender
    obtain ⟨l, op, r⟩ := cond
    dsimp only at hop
    subst hop
    simp only [generate_html_tag] at hrender
    cases hget : ctxGet ctx l with
    | none =>
      rw [hget] at hrender
      simp at hrender
      subst hrender
      rfl
    | some vs =>
      rw [hget] at hrender
      dsimp only at hrender
      by_cases hsp : splitOnSub r spaceS = vs
      · rw [if_pos hsp, renderEqualBody] at hrender
        simp at hrender
        subst hrender
        exact hlit
      · rw [if_neg hsp] at hrender
        simp at hrender
        subst hrender
        rfl

/-- C9 witness: the rendered output of the spec's if-example re-classifies as
the same Literal. -/
theorem literal_and_equal_literal_reclassify_witness :
    get_content_type "<h1> hello Bob </h1>".data =
      some (.Literal "<h1> hello Bob </h1>".data) :=
  literal_and_equal_literal_reclassify.2
    ⟨"name".data, .Equal, "Bob".data⟩ "<h1> hello Bob </h1>".data
    [("name".data, ["Bob".data])] "<h1> hello Bob </h1>".data rfl rfl rfl

/-- C2 counterexample: nesting a directive inside a directive line does not
in general classify the body to a nested Tag. First line: the code cuts the
body at the FIRST occurrence of "\x7b% endif %\x7d", not at the trailing one,
so for the doubly-nested if-line (length 56, first "\x7b% endif %\x7d" at
index 33, trailing one at index 45) the truncated body
"\x7b% if a = b %\x7d hi" has no closing suffix and its recursive
classification panics, taking the whole line's parse and classification with
it. Second line: an if nested inside a for fails even earlier, because
`find("\x7b% if ")` locates the INNER header (index 17), so the condition
start 17 + 6 = 23 lies past the first " %\x7d" (index 13);
`get_conditional_data` returns the Err and the `expect` in the ForTag branch
panics — a nested IfTag body can never arise. -/
theorem nested_same_keyword_truncates_cex :
    findSub
      "\x7b% if a = b %\x7d \x7b% if a = b %\x7d hi \x7b% endif %\x7d \x7b% endif %\x7d".data
      endifTagS = some 33 ∧
    ("\x7b% if a = b %\x7d \x7b% if a = b %\x7d hi \x7b% endif %\x7d \x7b% endif %\x7d".data).length = 56 ∧
    get_conditional_data
      "\x7b% if a = b %\x7d \x7b% if a = b %\x7d hi \x7b% endif %\x7d \x7b% endif %\x7d".data = none ∧
    get_content_type
      "\x7b% if a = b %\x7d \x7b% if a = b %\x7d hi \x7b% endif %\x7d \x7b% endif %\x7d".data = none ∧
    findSub
      "\x7b% for x in y %\x7d \x7b% if a = b %\x7d c \x7b% endif %\x7d \x7b% endfor %\x7d".data
      ifHdrS = some 17 ∧
    findSub
      "\x7b% for x in y %\x7d \x7b% if a = b %\x7d c \x7b% endif %\x7d \x7b% endfor %\x7d".data
      condCloseS = some 13 ∧
    get_conditional_data
      "\x7b% for x in y %\x7d \x7b% if a = b %\x7d c \x7b% endif %\x7d \x7b% endfor %\x7d".data =
      some (.error invalidInputS) ∧
    get_content_type
      "\x7b% for x in y %\x7d \x7b% if a = b %\x7d c \x7b% endif %\x7d \x7b% endfor %\x7d".data = none :=
  ⟨rfl, rfl, rfl, rfl, rfl, rfl, rfl, rfl⟩

/-- C2 (amended: the directive body is the substring between the condition's
closing " %\x7d" and the FIRST occurrence of "\x7b% endif %\x7d" — falling
back to the first "\x7b% endfor %\x7d" — rather than the trailing closer;
the trimmed body is recursively classified, and the only nesting that
survives is a for-directive inside an if-line, yielding a nested ForTag body:
same-keyword nesting truncates the body and classification panics, and an if
nested inside a for panics at condition extraction because the inner
"\x7b% if " header is found first, putting the condition start past the first
" %\x7d" — both shown in the counterexample — so nesting depth is not
bounded only by line length): whenever the suffix check,
header/condition-close/closer searches, bounds check, condition parse, body
slice and recursive body classification all succeed, `get_conditional_data`
returns the parsed condition paired with the recursively classified trimmed
body. -/
theorem conditional_body_extraction (s : Str) (sc ec ee : Nat)
    (condStr bodyStr : Str) (condD : ConditionData) (body : ContentType)
    (hsuf : (endsWith s endifTagS || endsWith s endforTagS) = true)
    (hsc : (match findSub s ifHdrS with
            | some i => some (i + 6)
            | none => (findSub s forHdrS).map (fun i => i + 7)) = some sc)
    (hec : findSub s condCloseS = some ec)
    (hee : (match findSub s endifTagS with
            | some i => some i
            | none => findSub s endforTagS) = some ee)
    (hlt : ¬ sc ≥ ec)
    (hcs : sliceRange s sc ec = some condStr)
    (hcond : get_conditional_expression condStr = .ok condD)
    (hbs : sliceRange s (ec + 3) ee = some bodyStr)
    (hbody : get_content_type (trimStr bodyStr) = some body) :
    get_conditional_data s = some (.ok (.mk condD body)) := by
  have hsuf' : endsWith s endifTagS = true ∨ endsWith s endforTagS = true := by
    simpa using hsuf
  have hne : (!endsWith s endifTagS && !endsWith s endforTagS) = false := by
    rcases hsuf' with h | h <;> simp [h]
  have hs11 : 11 ≤ s.length := by
    rcases hsuf' with h | h
    · have h1 := endsWith_length_le h
      have h2 : endifTagS.length = 11 := by decide
      omega
    · have h1 := endsWith_length_le h
      have h2 : endforTagS.length = 12 := by decide
      omega
  have hblen : 2 * (trimStr bodyStr).length + 2 ≤ 2 * s.length := by
    have h1 := sliceRange_length_le hbs
    have h2 := trimStr_length_le bodyStr
    omega
  rw [get_conditional_data_unfold, hne]
  simp only [Bool.false_eq_true, if_false, hsc, hec, hee]
  rw [if_neg hlt, hcs]
  simp only [hcond]
  rw [hbs]
  simp only [(fuel_sufficient (2 * s.length)).1 (trimStr bodyStr) hblen, hbody]

/-- C2 witness: a for-directive nested in an if-line; the body is the
substring between indices 14 (condition close + 3) and 47 (first closer),
and its trimmed recursive classification is a nested Tag. -/
theorem conditional_body_extraction_witness :
    sliceRange
      "\x7b% if a = b %\x7d \x7b% for x in y %\x7d b \x7b% endfor %\x7d \x7b% endif %\x7d".data
      14 47 = some " \x7b% for x in y %\x7d b \x7b% endfor %\x7d ".data ∧
    get_conditional_data
      "\x7b% if a = b %\x7d \x7b% for x in y %\x7d b \x7b% endfor %\x7d \x7b% endif %\x7d".data =
      some (.ok (.mk ⟨"a".data, .Equal, "b".data⟩
        (.Tag (.ForTag (.mk ⟨"x".data, .In, "y".data⟩ (.Literal "b".data)))))) :=
  ⟨rfl,
   conditional_body_extraction
     "\x7b% if a = b %\x7d \x7b% for x in y %\x7d b \x7b% endfor %\x7d \x7b% endif %\x7d".data
     6 11 47 "a = b".data " \x7b% for x in y %\x7d b \x7b% endfor %\x7d ".data
     ⟨"a".data, .Equal, "b".data⟩
     (.Tag (.ForTag (.mk ⟨"x".data, .In, "y".data⟩ (.Literal "b".data))))
     rfl rfl rfl rfl (by decide) rfl rfl rfl rfl⟩
